import Mathlib

/-!
# Verification of the validate-infra connectivity tool

Shallow embedding, in Lean 4, of the core logic of the
`validate_infra_node` TypeScript sources of the debug-container
repository: the secret-masking helper, the summary/aggregation step,
VPC detection, connection-URL resolution, URL parsing with default
ports, and the Redis and PostgreSQL check runners (`src/utils.ts`,
`src/cache.ts`, `src/database.ts`, `src/index.ts`).

External effects (process environment, network interfaces, sockets,
database drivers) are passed in explicitly: the environment is a map
from variable names to optional values, the interface table is data,
and each driver call is an oracle recording whether that call would
have succeeded or thrown, so every embedded function is a pure,
executable Lean function whose control flow mirrors the source.
-/

deriving instance DecidableEq for Except

namespace ValidateInfra

/-- `CheckResult` from `utils.ts`: one named pass/fail record with an
optional message. -/
structure CheckResult where
  name : String
  passed : Bool
  message : Option String
deriving Repr, DecidableEq

/-- One address entry of `os.networkInterfaces()`: the address family
tag (`"IPv4"` / `"IPv6"`) and the textual address. -/
structure NetAddr where
  family : String
  address : String
deriving Repr, DecidableEq

/-- The value of `os.networkInterfaces()`: named interfaces, each with
a list of addresses. -/
abbrev Interfaces := List (String × List NetAddr)

/-- The process environment: `process.env` as a map from variable name
to optional string value (`none` = unset). -/
abbrev Env := String → Option String

/-- JavaScript truthiness of a `string | undefined` value: `undefined`
and the empty string are falsy. -/
def truthy : Option String → Bool
  | some s => s ≠ ""
  | none => false

/-- JS `s.startsWith(p)`, stated over the character lists so that it
evaluates by kernel reduction. -/
def strStartsWith (s p : String) : Bool :=
  p.toList.isPrefixOf s.toList

/-- JS `String.prototype.trim`: drop whitespace from both ends. -/
def strTrim (s : String) : String :=
  String.mk (((s.toList.dropWhile Char.isWhitespace).reverse.dropWhile
    Char.isWhitespace).reverse)

/-- `maskSecret` from `utils.ts`: empty secret yields the fixed
placeholder, a secret no longer than `show` is replaced by asterisks of
the same length, otherwise the first `show` characters are kept and the
rest replaced by asterisks. -/
def maskSecret (secret : String) (shown : Nat) : String :=
  if secret = "" then "<empty>"
  else if secret.length ≤ shown then String.mk (List.replicate secret.length '*')
  else secret.take shown ++ String.mk (List.replicate (secret.length - shown) '*')

/-- `printSummary` from `utils.ts`, restricted to its return value: the
exit code is `0` when no record failed and `1` otherwise (console
output omitted). -/
def printSummary (checks : List CheckResult) : Nat :=
  let failed := (checks.filter fun c => !c.passed).length
  if failed = 0 then 0 else 1

/-- The exit-code fold of `runAll` in `index.ts`: the overall code is
`0` unless some module returned a nonzero code. -/
def runAllExit (results : List Nat) : Nat :=
  if results.any fun r => r ≠ 0 then 1 else 0

/-- Composition of the two aggregation layers: each suite is summarised
by `printSummary` and the suite exit codes folded by `runAllExit`. -/
def aggregateExit (suites : List (List CheckResult)) : Nat :=
  runAllExit (suites.map printSummary)

/-- The inner loop of `hasVpcInterface` in `utils.ts`: scan one
interface's address list for an IPv4 address starting with `"10."`,
returning at the first hit. -/
def scanAddrs : List NetAddr → Bool
  | [] => false
  | a :: rest =>
    if a.family == "IPv4" && strStartsWith a.address "10." then true
    else scanAddrs rest

/-- The outer loop of `hasVpcInterface` in `utils.ts` over the named
interfaces. -/
def scanInterfaces : Interfaces → Bool
  | [] => false
  | (_, addrs) :: rest =>
    if scanAddrs addrs then true else scanInterfaces rest

/-- `hasVpcInterface` from `utils.ts`
(`src/validate_infra_node/src/utils.ts:126`): true exactly when some
local interface carries an IPv4 address whose text starts with
`"10."`. -/
def hasVpcInterface (ifaces : Interfaces) : Bool :=
  scanInterfaces ifaces

/-- `getConnectionUrl` from `utils.ts`: when a private key is supplied
(and nonempty, per JS truthiness) and a VPC interface is detected, a
truthy private value takes precedence; otherwise the public variable's
value is returned verbatim (possibly `undefined`). -/
def getConnectionUrl (env : Env) (ifaces : Interfaces) (urlKey : String)
    (privateUrlKey : Option String) : Option String :=
  match privateUrlKey with
  | none => env urlKey
  | some pk =>
    if pk ≠ "" && hasVpcInterface ifaces then
      match env pk with
      | some v => if v ≠ "" then some v else env urlKey
      | none => env urlKey
    else env urlKey

/-! ## URL parsing

`parseUrl` in `utils.ts` is built on Node's WHATWG `new URL`,
`decodeURIComponent` and `URLSearchParams`.  Those platform functions
are modelled below for the URL shapes this tool consumes
(`scheme://[user[:pass]@]host[:port][/path][?query]`, ASCII input,
ASCII percent-escapes): a string with no valid leading scheme is
rejected the way the constructor throws, the scheme is lower-cased,
userinfo splits at the last `@` (then user/password at the first `:`),
a port must be all digits and at most 65535, and search parameters are
split on `&`/`=` with later occurrences of a key overwriting earlier
ones. -/

/-- Result of the modelled `new URL` constructor. -/
structure UrlParts where
  scheme : String
  user : String
  pass : String
  host : String
  portStr : String
  path : String
  query : String
deriving Repr, DecidableEq

/-- Characters legal in a URL scheme after the first. -/
def isSchemeChar (c : Char) : Bool :=
  c.isAlphanum || c = '+' || c = '-' || c = '.'

/-- Scheme scanner: consume `[a-zA-Z][a-zA-Z0-9+.-]*` followed by `:`,
returning the scheme characters and the remainder. -/
def schemeLoop (acc : List Char) : List Char → Option (List Char × List Char)
  | [] => none
  | ':' :: r => some (acc.reverse, r)
  | c :: r => if isSchemeChar c then schemeLoop (c :: acc) r else none

/-- Split off a valid URL scheme, or fail as the constructor throws. -/
def splitScheme : List Char → Option (List Char × List Char)
  | [] => none
  | c :: rest => if c.isAlpha then schemeLoop [c] rest else none

/-- Split a character list at the first occurrence of `c`, when present
(the delimiter is dropped). -/
def splitFirstAt (c : Char) : List Char → Option (List Char × List Char)
  | [] => none
  | x :: rest =>
    if x = c then some ([], rest)
    else match splitFirstAt c rest with
      | some (a, b) => some (x :: a, b)
      | none => none

/-- Split a character list at the last occurrence of `c`, when present
(the delimiter is dropped). -/
def splitLastAt (c : Char) (cs : List Char) : Option (List Char × List Char) :=
  match splitFirstAt c cs.reverse with
  | some (a, b) => some (b.reverse, a.reverse)
  | none => none

/-- Split a trailing `path?query#fragment` part into path and query. -/
def parsePathQuery (cs : List Char) : List Char × List Char :=
  let pr := cs.span fun c => c ≠ '?' && c ≠ '#'
  match pr.2 with
  | '?' :: q => (pr.1, (q.span fun c => c ≠ '#').1)
  | _ => (pr.1, [])

/-- Digit run to number, for port parsing. -/
def digitsToNat (cs : List Char) : Nat :=
  cs.foldl (fun n c => 10 * n + (c.toNat - 48)) 0

/-- Modelled `new URL` constructor (see the section comment for the
covered fragment).  Fails exactly where the constructor throws on the
modelled shapes: no valid scheme, or a non-digit/overlarge port. -/
def newURL (s : String) : Except String UrlParts :=
  match splitScheme s.toList with
  | none => Except.error ("Invalid URL: " ++ s)
  | some (schemeCs, rest) =>
    let scheme := String.mk (schemeCs.map Char.toLower)
    match rest with
    | '/' :: '/' :: rest2 =>
      let ar := rest2.span fun c => c ≠ '/' && c ≠ '?' && c ≠ '#'
      let userinfo := splitLastAt '@' ar.1
      let ui := match userinfo with
        | some (u, _) => u
        | none => []
      let hostport := match userinfo with
        | some (_, hp) => hp
        | none => ar.1
      let userpass := match splitFirstAt ':' ui with
        | some (u, p) => (u, p)
        | none => (ui, [])
      match splitFirstAt ':' hostport with
      | some (h, p) =>
        if p.all Char.isDigit then
          if digitsToNat p ≤ 65535 then
            let pq := parsePathQuery ar.2
            Except.ok ⟨scheme, String.mk userpass.1, String.mk userpass.2,
              String.mk h, if p = [] then "" else toString (digitsToNat p),
              String.mk pq.1, String.mk pq.2⟩
          else Except.error ("Invalid URL: " ++ s)
        else Except.error ("Invalid URL: " ++ s)
      | none =>
        let pq := parsePathQuery ar.2
        Except.ok ⟨scheme, String.mk userpass.1, String.mk userpass.2,
          String.mk hostport, "", String.mk pq.1, String.mk pq.2⟩
    | _ =>
      let pq := parsePathQuery rest
      Except.ok ⟨scheme, "", "", "", "", String.mk pq.1, String.mk pq.2⟩

/-- Hex digit value, for percent-escapes. -/
def hexVal (c : Char) : Option Nat :=
  if '0' ≤ c ∧ c ≤ '9' then some (c.toNat - 48)
  else if 'a' ≤ c ∧ c ≤ 'f' then some (c.toNat - 87)
  else if 'A' ≤ c ∧ c ≤ 'F' then some (c.toNat - 70)
  else none

/-- Modelled `decodeURIComponent` on ASCII data: a valid `%XX` escape
below 0x80 decodes to its character, any other `%` use throws
`URI malformed`. -/
def decodePercent : List Char → Except String (List Char)
  | [] => Except.ok []
  | '%' :: h :: l :: rest =>
    (match hexVal h, hexVal l with
     | some a, some b =>
       if 16 * a + b < 128 then
         match decodePercent rest with
         | Except.ok d => Except.ok (Char.ofNat (16 * a + b) :: d)
         | Except.error m => Except.error m
       else Except.error "URI malformed"
     | _, _ => Except.error "URI malformed")
  | '%' :: _ => Except.error "URI malformed"
  | c :: rest =>
    match decodePercent rest with
    | Except.ok d => Except.ok (c :: d)
    | Except.error m => Except.error m

/-- `decodeURIComponent` lifted to strings. -/
def decodeURIComponentM (s : String) : Except String String :=
  match decodePercent s.toList with
  | Except.ok cs => Except.ok (String.mk cs)
  | Except.error m => Except.error m

/-- Query-component decoding of `URLSearchParams`: `+` becomes a space
and valid ASCII `%XX` escapes decode; malformed escapes are left
untouched (this decoder never throws). -/
def decodeQueryChars : List Char → List Char
  | [] => []
  | '%' :: h :: l :: rest =>
    (match hexVal h, hexVal l with
     | some a, some b =>
       if 16 * a + b < 128 then Char.ofNat (16 * a + b) :: decodeQueryChars rest
       else '%' :: decodeQueryChars (h :: l :: rest)
     | _, _ => '%' :: decodeQueryChars (h :: l :: rest))
  | '+' :: rest => ' ' :: decodeQueryChars rest
  | c :: rest => c :: decodeQueryChars rest

/-- Insert-or-overwrite into an association list, preserving the
position of an existing key (JS object assignment). -/
def upsert (m : List (String × String)) (k v : String) : List (String × String) :=
  match m with
  | [] => [(k, v)]
  | (k0, v0) :: rest =>
    if k0 = k then (k0, v) :: rest else (k0, v0) :: upsert rest k v

/-- Split a character list on a delimiter character (the pieces keep
their order, delimiters are dropped). -/
def splitOnChar (c : Char) : List Char → List (List Char)
  | [] => [[]]
  | x :: rest =>
    if x = c then [] :: splitOnChar c rest
    else
      match splitOnChar c rest with
      | [] => [[x]]
      | p :: ps => (x :: p) :: ps

/-- The `url.searchParams.forEach` loop of `parseUrl`: split the query
on `&`, each nonempty piece at its first `=`, decoding both sides;
assignment into `result.params` makes the last occurrence of a key
win. -/
def parseQueryPairs (q : String) : List (String × String) :=
  ((splitOnChar '&' q.toList).filter fun part => part ≠ []).foldl
    (fun m part =>
      match splitFirstAt '=' part with
      | some (k, v) =>
        upsert m (String.mk (decodeQueryChars k)) (String.mk (decodeQueryChars v))
      | none => upsert m (String.mk (decodeQueryChars part)) "")
    []

/-- `ParsedUrl` from `utils.ts`. -/
structure ParsedUrl where
  scheme : String
  username : String
  password : String
  host : String
  port : Option Nat
  database : String
  params : List (String × String)
deriving Repr, DecidableEq

/-- The static scheme-to-default-port table of `parseUrl`
(`defaults[result.scheme] || null`). -/
def defaultPortTable (scheme : String) : Option Nat :=
  if scheme = "postgresql" then some 5432
  else if scheme = "postgres" then some 5432
  else if scheme = "mysql" then some 3306
  else if scheme = "mongodb" then some 27017
  else if scheme = "mongodb+srv" then some 27017
  else if scheme = "redis" then some 6379
  else if scheme = "rediss" then some 6379
  else none

/-- `url.pathname.replace(/^\//, '')`: drop one leading slash. -/
def stripLeadingSlash (s : String) : String :=
  match s.toList with
  | '/' :: rest => String.mk rest
  | _ => s

/-- Build the `ParsedUrl` record of `parseUrl` from constructor output
and decoded credentials: the port is the explicit port when present,
else the table default, else null. -/
def parsedOf (u : UrlParts) (un pw : String) : ParsedUrl :=
  let explicitPort : Option Nat :=
    if u.portStr ≠ "" then some (digitsToNat u.portStr.toList) else none
  { scheme := u.scheme, username := un, password := pw, host := u.host,
    port := match explicitPort with
      | some n => some n
      | none => defaultPortTable u.scheme,
    database := stripLeadingSlash u.path,
    params := parseQueryPairs u.query }

/-- `parseUrl` from `utils.ts`: `new URL`, credential decoding, default
ports and query parameters.  An `Except.error` is a thrown exception
(there is no `try` inside `parseUrl`). -/
def parseUrl (s : String) : Except String ParsedUrl :=
  match newURL s with
  | Except.error m => Except.error m
  | Except.ok u =>
    match decodeURIComponentM u.user with
    | Except.error m => Except.error m
    | Except.ok un =>
      match decodeURIComponentM u.pass with
      | Except.error m => Except.error m
      | Except.ok pw => Except.ok (parsedOf u un pw)

/-! ## Check runners

The runners in `cache.ts` and `database.ts` interleave driver calls
with record pushes and try/catch handling.  Each external call is
represented by an oracle field: `Except.ok` is the value the awaited
call returned, `Except.error m` means the call threw with message `m`.
The Lean functions below replay the source's control flow over those
oracles. -/

/-- Outcome of one raw socket attempt in `tcpCheck` (`utils.ts:231`):
the `connect` event, the timeout timer, or an `error` event carrying
the Node error code and message. -/
inductive TcpOutcome where
  | connected
  | timedOut
  | errCode (code msg : String)
deriving Repr, DecidableEq

/-- Template-literal rendering of the port (`null` when absent, as JS
interpolates it). -/
def portDisplay : Option Nat → String
  | some n => toString n
  | none => "null"

/-- `tcpCheck` from `utils.ts`: success/failure flag plus the message
the source builds for each outcome (DNS failure, refusal, timeout,
other error). -/
def tcpCheck (host : String) (port : Option Nat) (timeout : Nat)
    (o : TcpOutcome) : Bool × String :=
  match o with
  | TcpOutcome.connected =>
    (true, "TCP connection to " ++ host ++ ":" ++ portDisplay port ++ " successful")
  | TcpOutcome.timedOut =>
    (false, "TCP connection to " ++ host ++ ":" ++ portDisplay port ++
      " timed out after " ++ toString timeout ++ "ms")
  | TcpOutcome.errCode code m =>
    if code = "ENOTFOUND" then
      (false, "DNS resolution failed for " ++ host ++ ": " ++ m)
    else if code = "ECONNREFUSED" then
      (false, "TCP connection to " ++ host ++ ":" ++ portDisplay port ++ " refused")
    else (false, "TCP connection error: " ++ m)

/-- Does `needle` occur as a prefix of some suffix of the list
(substring occurrence, for `String.includes`)? -/
def containsFrom (needle : List Char) : List Char → Bool
  | [] => needle.isPrefixOf []
  | c :: rest => needle.isPrefixOf (c :: rest) || containsFrom needle rest

/-- JS `hay.includes(needle)`. -/
def containsSubstr (hay needle : String) : Bool :=
  containsFrom needle.toList hay.toList

/-- Suffix following the first occurrence of `pat`, when it occurs. -/
def afterFirst (pat : List Char) : List Char → Option (List Char)
  | [] => if pat.isPrefixOf ([] : List Char) then some [] else none
  | c :: rest =>
    if pat.isPrefixOf (c :: rest) then some ((c :: rest).drop pat.length)
    else afterFirst pat rest

/-- The `info.match(/redis_version:(\S+)/)` extraction of `cache.ts`:
the non-whitespace run following the first `redis_version:`. -/
def findRedisVersion (info : String) : Option String :=
  match afterFirst "redis_version:".toList info.toList with
  | some rest =>
    let run := rest.takeWhile fun c => !c.isWhitespace
    if run = [] then none else some (String.mk run)
  | none => none

/-- Oracles for the external calls of `validateRedis` (`cache.ts:22`),
in the order the source awaits them. -/
structure RedisExt where
  tcp : TcpOutcome
  driverOk : Bool
  connect : Except String Unit
  ping : Except String String
  info : Except String String
  setK : Except String Unit
  getK : Except String (Option String)
  delK : Except String Unit
  getAfterDel : Except String (Option String)
  quit : Except String Unit

/-- Rendering of a `string | null` Redis reply inside a template
literal. -/
def displayOpt : Option String → String
  | some v => v
  | none => "null"

/-- The connection-level catch of `validateRedis` (`cache.ts:129`): it
always pushes a failed `Redis Connection` record and, on an
authentication message, additionally a failed `Redis Auth` record (the
other branches only print warnings). -/
def redisConnCatch (msg : String) : List CheckResult :=
  let base := [⟨"Redis Connection", false, some msg⟩]
  if !(containsSubstr msg "Connection refused") &&
     !(containsSubstr msg "Connection timed out") &&
     (containsSubstr msg "NOAUTH" || containsSubstr msg "ERR AUTH") then
    base ++ [⟨"Redis Auth", false, some msg⟩]
  else base

/-- The SET/GET/DELETE try block of `validateRedis` (`cache.ts:89`): a
throw anywhere in the sequence is caught and recorded as one failed
`Redis Operations` record. -/
def redisOps (e : RedisExt) : List CheckResult :=
  match e.setK with
  | Except.error msg => [⟨"Redis Operations", false, some msg⟩]
  | Except.ok _ =>
    let s := [⟨"Redis SET", true, some ("Set key " ++ "_validate_infra_test")⟩]
    match e.getK with
    | Except.error msg => s ++ [⟨"Redis Operations", false, some msg⟩]
    | Except.ok r =>
      let g := s ++ [if r = some "test_value_12345" then
          ⟨"Redis GET", true, some "Retrieved correct value"⟩
        else ⟨"Redis GET", false, some ("Value mismatch: " ++ displayOpt r)⟩]
      match e.delK with
      | Except.error msg => g ++ [⟨"Redis Operations", false, some msg⟩]
      | Except.ok _ =>
        let d := g ++ [⟨"Redis DELETE", true, some "Deleted test key"⟩]
        match e.getAfterDel with
        | Except.error msg => d ++ [⟨"Redis Operations", false, some msg⟩]
        | Except.ok _ => d

/-- The client session of `validateRedis` (`cache.ts:47`–`128`), after
the driver import succeeded: connect, PING (early return on a non-PONG
reply), optional server info, the operations block, and `quit`; a
throw from `connect`, `ping` or `quit` lands in the catch at line
129. -/
def redisSession (e : RedisExt) : List CheckResult :=
  match e.connect with
  | Except.error msg => redisConnCatch msg
  | Except.ok _ =>
    match e.ping with
    | Except.error msg => redisConnCatch msg
    | Except.ok resp =>
      if resp = "PONG" then
        let c1 := [⟨"Redis PING", true, some "PONG received"⟩]
        let c2 := c1 ++ (match e.info with
          | Except.ok infoStr =>
            match findRedisVersion infoStr with
            | some v => [⟨"Redis Server", true, some ("Version: " ++ v)⟩]
            | none => []
          | Except.error _ => [])
        let c3 := c2 ++ redisOps e
        match e.quit with
        | Except.ok _ => c3
        | Except.error msg => c3 ++ redisConnCatch msg
      else
        let c1 := [⟨"Redis PING", false, some "No response"⟩]
        match e.quit with
        | Except.ok _ => c1
        | Except.error msg => c1 ++ redisConnCatch msg

/-- Body of `validateRedis` after the URL has been parsed: the TCP
record, early return on TCP failure, the driver-import guard, then the
session. -/
def validateRedisParsed (p : ParsedUrl) (e : RedisExt) : List CheckResult :=
  let tcpRes := tcpCheck p.host p.port 5000 e.tcp
  let checks := [⟨"Redis TCP", tcpRes.1, some tcpRes.2⟩]
  if !tcpRes.1 then checks
  else if !e.driverOk then
    checks ++ [⟨"Redis Driver", false, some "ioredis not installed"⟩]
  else checks ++ redisSession e

/-- `validateRedis` from `cache.ts`: `parseUrl` runs outside every
`try`, so a parse throw escapes the function (`Except.error`). -/
def validateRedis (url : String) (e : RedisExt) : Except String (List CheckResult) :=
  match parseUrl url with
  | Except.error m => Except.error m
  | Except.ok p => Except.ok (validateRedisParsed p e)

/-- The environment-variable priority list of `cache.runChecks`
(`cache.ts:160`). -/
def cacheUrlConfigs : List (String × String) :=
  [("REDIS_URL", "REDIS_PRIVATE_URL"),
   ("VALKEY_URL", "VALKEY_PRIVATE_URL"),
   ("CACHE_URL", "CACHE_PRIVATE_URL")]

/-- The resolution loop shared by the runners: first config whose
`getConnectionUrl` result is truthy wins; if none is, the runner
skips. -/
def findFirstUrl (env : Env) (ifaces : Interfaces) :
    List (String × String) → Option String
  | [] => none
  | (k, pk) :: rest =>
    let u := getConnectionUrl env ifaces k (some pk)
    if truthy u then u else findFirstUrl env ifaces rest

/-- `cache.runChecks` (`cache.ts:156`): skip with exit 0 and no records
when no URL is configured, otherwise validate and summarise.  An
`Except.error` is an exception escaping the runner. -/
def cacheRunChecks (env : Env) (ifaces : Interfaces) (e : RedisExt) :
    Except String (List CheckResult × Nat) :=
  match findFirstUrl env ifaces cacheUrlConfigs with
  | none => Except.ok ([], 0)
  | some url =>
    match validateRedis url e with
    | Except.error m => Except.error m
    | Except.ok checks => Except.ok (checks, printSummary checks)

/-- The catch around a module run in `index.ts` (`runAll` lines
103–119 and `main` lines 223–230): a runner exception is logged and
the exit code forced to 1, with no CheckRecord produced. -/
def cacheCommandExit (env : Env) (ifaces : Interfaces) (e : RedisExt) : Nat :=
  match cacheRunChecks env ifaces e with
  | Except.ok r => r.2
  | Except.error _ => 1

/-- Driver calls issued by `validatePostgresql`, in source order, used
to trace which external operations a run performs. -/
inductive PgCall where
  | connect
  | queryVersion
  | dropIfExists
  | createTable
  | insertRow
  | selectRows
  | updateRow
  | deleteRow
  | dropTable
  | endConn
deriving Repr, DecidableEq

/-- Oracles for the external calls of `validatePostgresql`
(`database.ts:22`). -/
structure PgExt where
  tcp : TcpOutcome
  driverOk : Bool
  connect : Except String Unit
  version : Except String String
  dropIfExists : Except String Unit
  create : Except String Unit
  insert : Except String Unit
  selectQ : Except String Unit
  update : Except String Unit
  delete : Except String Unit
  dropFinal : Except String Unit
  endConn : Except String Unit

/-- The connection-level catch of `validatePostgresql`
(`database.ts:103`): one failed `PostgreSQL Connection` record with the
trimmed message (hints are printed, not recorded). -/
def pgConnFail (msg : String) : CheckResult :=
  ⟨"PostgreSQL Connection", false, some (strTrim msg)⟩

/-- One failed `PostgreSQL Permissions` record, pushed by the catch of
the permission-test block (`database.ts:96`). -/
def pgPermsFail (msg : String) : CheckResult :=
  ⟨"PostgreSQL Permissions", false, some msg⟩

/-- The permission-test try block of `validatePostgresql`
(`database.ts:66`–`100`): drop-if-exists, create, insert, select,
update, delete, final drop.  The first throw aborts the sequence into
the catch; the records and the trace of issued queries are returned. -/
def pgPerms (e : PgExt) : List CheckResult × List PgCall :=
  match e.dropIfExists with
  | Except.error msg => ([pgPermsFail msg], [PgCall.dropIfExists])
  | Except.ok _ =>
    match e.create with
    | Except.error msg =>
      ([pgPermsFail msg], [PgCall.dropIfExists, PgCall.createTable])
    | Except.ok _ =>
      let c := [⟨"PostgreSQL CREATE", true,
        some ("Created table " ++ "_validate_infra_test")⟩]
      match e.insert with
      | Except.error msg =>
        (c ++ [pgPermsFail msg],
         [PgCall.dropIfExists, PgCall.createTable, PgCall.insertRow])
      | Except.ok _ =>
        let ci := c ++ [⟨"PostgreSQL INSERT", true, some "Inserted test row"⟩]
        match e.selectQ with
        | Except.error msg =>
          (ci ++ [pgPermsFail msg],
           [PgCall.dropIfExists, PgCall.createTable, PgCall.insertRow,
            PgCall.selectRows])
        | Except.ok _ =>
          let cs := ci ++ [⟨"PostgreSQL SELECT", true, some "Selected from test table"⟩]
          match e.update with
          | Except.error msg =>
            (cs ++ [pgPermsFail msg],
             [PgCall.dropIfExists, PgCall.createTable, PgCall.insertRow,
              PgCall.selectRows, PgCall.updateRow])
          | Except.ok _ =>
            let cu := cs ++ [⟨"PostgreSQL UPDATE", true, some "Updated test row"⟩]
            match e.delete with
            | Except.error msg =>
              (cu ++ [pgPermsFail msg],
               [PgCall.dropIfExists, PgCall.createTable, PgCall.insertRow,
                PgCall.selectRows, PgCall.updateRow, PgCall.deleteRow])
            | Except.ok _ =>
              let cd := cu ++ [⟨"PostgreSQL DELETE", true, some "Deleted test row"⟩]
              match e.dropFinal with
              | Except.error msg =>
                (cd ++ [pgPermsFail msg],
                 [PgCall.dropIfExists, PgCall.createTable, PgCall.insertRow,
                  PgCall.selectRows, PgCall.updateRow, PgCall.deleteRow,
                  PgCall.dropTable])
              | Except.ok _ =>
                (cd,
                 [PgCall.dropIfExists, PgCall.createTable, PgCall.insertRow,
                  PgCall.selectRows, PgCall.updateRow, PgCall.deleteRow,
                  PgCall.dropTable])

/-- Body of `validatePostgresql` after the URL has been parsed: the TCP
record with early return, the driver guard, connect, version query,
the permission block and `client.end()`; the second component is the
trace of driver calls issued. -/
def validatePostgresqlParsed (p : ParsedUrl) (e : PgExt) :
    List CheckResult × List PgCall :=
  let tcpRes := tcpCheck p.host p.port 5000 e.tcp
  let t := [⟨"PostgreSQL TCP", tcpRes.1, some tcpRes.2⟩]
  if !tcpRes.1 then (t, [])
  else if !e.driverOk then
    (t ++ [⟨"PostgreSQL Driver", false, some "pg not installed"⟩], [])
  else
    match e.connect with
    | Except.error msg => (t ++ [pgConnFail msg], [PgCall.connect])
    | Except.ok _ =>
      let c0 := t ++ [⟨"PostgreSQL Connection", true, some "Connected successfully"⟩]
      match e.version with
      | Except.error msg =>
        (c0 ++ [pgConnFail msg], [PgCall.connect, PgCall.queryVersion])
      | Except.ok ver =>
        let c1 := c0 ++ [⟨"PostgreSQL Query", true, some (ver.take 60 ++ "...")⟩]
        let pr := pgPerms e
        let c2 := c1 ++ pr.1
        let tr := [PgCall.connect, PgCall.queryVersion] ++ pr.2
        match e.endConn with
        | Except.ok _ => (c2, tr ++ [PgCall.endConn])
        | Except.error msg => (c2 ++ [pgConnFail msg], tr ++ [PgCall.endConn])

/-- `validatePostgresql` from `database.ts`: as with Redis, `parseUrl`
runs outside every `try` and a parse throw escapes. -/
def validatePostgresql (url : String) (e : PgExt) :
    Except String (List CheckResult × List PgCall) :=
  match parseUrl url with
  | Except.error m => Except.error m
  | Except.ok p => Except.ok (validatePostgresqlParsed p e)

/-- The PostgreSQL env-var priority list of `database.runChecks`
(`database.ts:370`). -/
def pgConfigs : List (String × String) :=
  [("DATABASE_URL", "DATABASE_PRIVATE_URL"),
   ("POSTGRES_URL", "POSTGRES_PRIVATE_URL"),
   ("PG_URL", "PG_PRIVATE_URL")]

/-- The MySQL env-var priority list of `database.runChecks`. -/
def mysqlConfigs : List (String × String) :=
  [("MYSQL_URL", "MYSQL_PRIVATE_URL"),
   ("MYSQL_DATABASE_URL", "MYSQL_DATABASE_PRIVATE_URL")]

/-- The MongoDB env-var priority list of `database.runChecks`. -/
def mongoConfigs : List (String × String) :=
  [("MONGODB_URI", "MONGODB_PRIVATE_URI"),
   ("MONGODB_URL", "MONGODB_PRIVATE_URL"),
   ("MONGO_URL", "MONGO_PRIVATE_URL")]

/-- `detectDatabaseType` from `database.ts:349`. -/
def detectDatabaseType (url : String) : Option String :=
  if strStartsWith url "postgresql://" || strStartsWith url "postgres://" then
    some "postgresql"
  else if strStartsWith url "mysql://" then some "mysql"
  else if strStartsWith url "mongodb://" || strStartsWith url "mongodb+srv://" then
    some "mongodb"
  else none

/-- The per-type config loop of `database.runChecks`
(`database.ts:402`–`426`): first truthy URL whose detected type matches
the requested one (or is unrecognised) is validated; the driver work is
abstracted by the `validate` oracle. -/
def dbFindAndRun (env : Env) (ifaces : Interfaces) (dtype : String)
    (validate : String → List CheckResult) :
    List (String × String) → List CheckResult
  | [] => []
  | (k, pk) :: rest =>
    match getConnectionUrl env ifaces k (some pk) with
    | some url =>
      if url ≠ "" then
        if detectDatabaseType url = some dtype ∨ detectDatabaseType url = none then
          validate url
        else dbFindAndRun env ifaces dtype validate rest
      else dbFindAndRun env ifaces dtype validate rest
    | none => dbFindAndRun env ifaces dtype validate rest

/-- `database.runChecks` with no explicit type argument
(`database.ts:363`): all three families are tried; with no records
collected the run skips with exit 0, otherwise it summarises. -/
def databaseRunChecks (env : Env) (ifaces : Interfaces)
    (vPg vMy vMo : String → List CheckResult) : List CheckResult × Nat :=
  let allChecks := dbFindAndRun env ifaces "postgresql" vPg pgConfigs
    ++ dbFindAndRun env ifaces "mysql" vMy mysqlConfigs
    ++ dbFindAndRun env ifaces "mongodb" vMo mongoConfigs
  if allChecks.length = 0 then ([], 0)
  else (allChecks, printSummary allChecks)

/-! ## Spec-side model of VPC detection

§4.2 of the specification describes VPC detection as the disjunction
of two signals.  The definitions below follow the spec's words (they
are deliberately not translated from `utils.ts`) so that the source's
`hasVpcInterface` can be compared against them. -/

/-- A world against which VPC detection runs: the process environment,
the local interface table, and a DNS resolver mapping a hostname to an
IPv4 address when it resolves. -/
structure World where
  env : Env
  ifaces : Interfaces
  dns : String → Option String

/-- The private-variant connection-URL environment variables of the
spec's §6 table. -/
def privateUrlEnvKeys : List String :=
  ["DATABASE_PRIVATE_URL", "POSTGRES_PRIVATE_URL", "PG_PRIVATE_URL",
   "MYSQL_PRIVATE_URL", "MYSQL_DATABASE_PRIVATE_URL",
   "MONGODB_PRIVATE_URI", "MONGODB_PRIVATE_URL", "MONGO_PRIVATE_URL",
   "REDIS_PRIVATE_URL", "VALKEY_PRIVATE_URL", "CACHE_PRIVATE_URL",
   "OPENSEARCH_PRIVATE_URL"]

/-- Hostname of a connection URL, for the spec's hostname-resolution
signal: the part after `://` and after the credentials, up to a `:` or
`/`. -/
def extractHostSimple (url : String) : String :=
  let cs := url.toList
  let afterScheme := match afterFirst "://".toList cs with
    | some r => r
    | none => cs
  let afterAt := match splitFirstAt '@' afterScheme with
    | some (_, r) => r
    | none => afterScheme
  String.mk (afterAt.takeWhile fun c => c ≠ ':' && c ≠ '/')

/-- Spec §4.2 signal (a), in the spec's words: some local network
interface has an IPv4 address in the `10.0.0.0/8` private range. -/
def specVpcSignalA (w : World) : Bool :=
  w.ifaces.any fun i => i.2.any fun a =>
    a.family == "IPv4" && strStartsWith a.address "10."

/-- Spec §4.2 signal (b), in the spec's words: some `private-` prefixed
hostname drawn from a present connection-URL environment variable
resolves to an address in `10.0.0.0/8`. -/
def specVpcSignalB (w : World) : Bool :=
  privateUrlEnvKeys.any fun k =>
    match w.env k with
    | some url =>
      let h := extractHostSimple url
      strStartsWith h "private-" &&
        (match w.dns h with
         | some ip => strStartsWith ip "10."
         | none => false)
    | none => false

/-- Spec §4.2: VPC detected when either signal holds. -/
def specVpcDetected (w : World) : Bool :=
  specVpcSignalA w || specVpcSignalB w

/-! ## Helper lemmas -/

/-- The summary exit code is zero exactly when no record failed. -/
theorem printSummary_eq_zero_iff (checks : List CheckResult) :
    printSummary checks = 0 ↔ ∀ c ∈ checks, c.passed = true := by
  have key : ((checks.filter fun c => !c.passed).length = 0) ↔
      ∀ c ∈ checks, c.passed = true := by
    rw [List.length_eq_zero, List.filter_eq_nil_iff]
    constructor
    · intro h c hc
      have := h c hc
      simpa using this
    · intro h c hc
      simp [h c hc]
  rw [show printSummary checks =
    (if (checks.filter fun c => !c.passed).length = 0 then 0 else 1) from rfl]
  by_cases hz : (checks.filter fun c => !c.passed).length = 0
  · rw [if_pos hz]
    exact ⟨fun _ => key.mp hz, fun _ => rfl⟩
  · rw [if_neg hz]
    exact ⟨fun h => absurd h one_ne_zero, fun h => absurd (key.mpr h) hz⟩

/-- The overall fold of `runAll` is zero exactly when every module exit
code is zero. -/
theorem runAllExit_eq_zero_iff (rs : List Nat) :
    runAllExit rs = 0 ↔ ∀ r ∈ rs, r = 0 := by
  rw [show runAllExit rs = (if rs.any fun r => r ≠ 0 then 1 else 0) from rfl]
  by_cases h : (rs.any fun r => r ≠ 0) = true
  · rw [if_pos h]
    rw [List.any_eq_true] at h
    obtain ⟨r, hr, hne⟩ := h
    simp only [decide_eq_true_eq] at hne
    exact ⟨fun h10 => absurd h10 one_ne_zero, fun hall => absurd (hall r hr) hne⟩
  · rw [if_neg h]
    rw [List.any_eq_true] at h
    push_neg at h
    refine ⟨fun _ r hr => ?_, fun _ => rfl⟩
    have := h r hr
    simpa using this

/-- The inner interface loop is the `any` of the per-address VPC
test. -/
theorem scanAddrs_eq_any (l : List NetAddr) :
    scanAddrs l = l.any fun a => a.family == "IPv4" && strStartsWith a.address "10." := by
  induction l with
  | nil => rfl
  | cons a rest ih =>
    cases h : a.family == "IPv4" && strStartsWith a.address "10." <;>
      simp [scanAddrs, h, ih]

/-- The outer interface loop is the `any` over named interfaces. -/
theorem scanInterfaces_eq_any (l : Interfaces) :
    scanInterfaces l = l.any fun i => i.2.any fun a =>
      a.family == "IPv4" && strStartsWith a.address "10." := by
  induction l with
  | nil => rfl
  | cons i rest ih =>
    cases h : scanAddrs i.2 <;>
      simp [scanInterfaces, h, ih, ← scanAddrs_eq_any]

/-- Resolution yields nothing when both candidate variables are
unset. -/
theorem getConnectionUrl_unset (env : Env) (ifaces : Interfaces)
    (k pk : String) (h1 : env k = none) (h2 : env pk = none) :
    getConnectionUrl env ifaces k (some pk) = none := by
  have hdef : getConnectionUrl env ifaces k (some pk) =
      if (decide (pk ≠ "") && hasVpcInterface ifaces) = true then
        (match env pk with
         | some v => if v ≠ "" then some v else env k
         | none => env k)
      else env k := rfl
  rw [hdef]
  by_cases hc : (decide (pk ≠ "") && hasVpcInterface ifaces) = true
  · rw [if_pos hc, h2]
    exact h1
  · rw [if_neg hc]
    exact h1

/-! ## Claims -/

/-- C10: the secret-masking helper returns `"abcd****"` for
`("abcd1234", 4)`, `"**"` for `("ab", 4)`, the fixed placeholder
`"<empty>"` for an empty secret and any show count; in general a
non-empty secret longer than the show count keeps its first `shown`
characters and gets one asterisk per remaining character, and a
non-empty secret of length at most `shown` becomes asterisks of the
same length. -/
theorem maskSecret_spec :
    maskSecret "abcd1234" 4 = "abcd****" ∧
    maskSecret "ab" 4 = "**" ∧
    (∀ n, maskSecret "" n = "<empty>") ∧
    (∀ s n, s ≠ "" → n < s.length →
      maskSecret s n = s.take n ++ String.mk (List.replicate (s.length - n) '*')) ∧
    (∀ s n, s ≠ "" → s.length ≤ n →
      maskSecret s n = String.mk (List.replicate s.length '*')) := by
  refine ⟨by decide, by decide, fun n => rfl, ?_, ?_⟩
  · intro s n hs hn
    unfold maskSecret
    rw [if_neg hs, if_neg (by omega)]
  · intro s n hs hl
    unfold maskSecret
    rw [if_neg hs, if_pos hl]

/-- Witness for C10 at concrete inputs covering both general
branches. -/
theorem maskSecret_spec_witness :
    ("secret12" : String) ≠ "" ∧ 6 < ("secret12" : String).length ∧
    maskSecret "secret12" 6 =
      ("secret12" : String).take 6 ++
        String.mk (List.replicate (("secret12" : String).length - 6) '*') ∧
    ("abc" : String) ≠ "" ∧ ("abc" : String).length ≤ 5 ∧
    maskSecret "abc" 5 = String.mk (List.replicate ("abc" : String).length '*') :=
  ⟨by decide, by decide,
    maskSecret_spec.2.2.2.1 "secret12" 6 (by decide) (by decide),
    by decide, by decide,
    maskSecret_spec.2.2.2.2 "abc" 5 (by decide) (by decide)⟩

/-- C3: the exit code derived from a list of CheckRecords by the
summary step is 0 exactly when every record has `passed = true` (and is
1 otherwise), and the two-layer aggregation over suites is 0 exactly
when every record of every suite passed. -/
theorem exitCode_zero_iff_all_passed :
    (∀ checks : List CheckResult,
      (printSummary checks = 0 ↔ ∀ c ∈ checks, c.passed = true) ∧
      (printSummary checks = 0 ∨ printSummary checks = 1)) ∧
    (∀ suites : List (List CheckResult),
      aggregateExit suites = 0 ↔ ∀ s ∈ suites, ∀ c ∈ s, c.passed = true) := by
  constructor
  · intro checks
    refine ⟨printSummary_eq_zero_iff checks, ?_⟩
    rw [show printSummary checks =
      (if (checks.filter fun c => !c.passed).length = 0 then 0 else 1) from rfl]
    by_cases hz : (checks.filter fun c => !c.passed).length = 0
    · exact Or.inl (if_pos hz)
    · exact Or.inr (if_neg hz)
  · intro suites
    rw [show aggregateExit suites = runAllExit (suites.map printSummary) from rfl]
    rw [runAllExit_eq_zero_iff]
    constructor
    · intro h s hs c hc
      exact (printSummary_eq_zero_iff s).mp
        (h (printSummary s) (List.mem_map_of_mem printSummary hs)) c hc
    · intro h r hr
      obtain ⟨s, hs, rfl⟩ := List.mem_map.mp hr
      exact (printSummary_eq_zero_iff s).mpr (h s hs)

/-- C1: for a public/private pair of variable names, resolution returns
nothing when neither variable holds a value, the public value when no
VPC interface is detected (even with the private variable set), the
private value when a VPC interface is detected and the private variable
holds a (non-empty) value, and the public value when a VPC interface is
detected but the private variable is unset.  "Set" is formalised as
holding a non-empty value, matching the JS truthiness tests the source
uses. -/
theorem getConnectionUrl_resolution (env : Env) (ifaces : Interfaces)
    (pub priv : String) (hpriv : priv ≠ "") :
    (env pub = none → env priv = none →
      getConnectionUrl env ifaces pub (some priv) = none) ∧
    (hasVpcInterface ifaces = false →
      getConnectionUrl env ifaces pub (some priv) = env pub) ∧
    (∀ v, hasVpcInterface ifaces = true → env priv = some v → v ≠ "" →
      getConnectionUrl env ifaces pub (some priv) = some v) ∧
    (hasVpcInterface ifaces = true → env priv = none →
      getConnectionUrl env ifaces pub (some priv) = env pub) := by
  refine ⟨?_, ?_, ?_, ?_⟩
  · intro hp hq
    unfold getConnectionUrl
    by_cases hv : hasVpcInterface ifaces
    · simp [hpriv, hv, hq, hp]
    · simp [hv, hp]
  · intro hv
    unfold getConnectionUrl
    simp [hv]
  · intro v hv hpv hvne
    unfold getConnectionUrl
    simp [hpriv, hv, hpv, hvne]
  · intro hv hq
    unfold getConnectionUrl
    simp [hpriv, hv, hq]

/-- A VPC-bearing interface table: `eth1` with a `10.*` IPv4
address. -/
def ifacesVpc : Interfaces := [("eth1", [⟨"IPv4", "10.106.0.2"⟩])]

/-- An environment with only the private cache URL set. -/
def envPrivOnly : Env := fun k =>
  if k = "REDIS_PRIVATE_URL" then some "rediss://private.example" else none

/-- Witness for C1: under a VPC interface with only the private
variable set, the private value is returned. -/
theorem getConnectionUrl_resolution_witness :
    hasVpcInterface ifacesVpc = true ∧
    envPrivOnly "REDIS_PRIVATE_URL" = some "rediss://private.example" ∧
    getConnectionUrl envPrivOnly ifacesVpc "REDIS_URL" (some "REDIS_PRIVATE_URL") =
      some "rediss://private.example" :=
  ⟨by decide, by decide,
    (getConnectionUrl_resolution envPrivOnly ifacesVpc "REDIS_URL"
      "REDIS_PRIVATE_URL" (by decide)).2.2.1 "rediss://private.example"
      (by decide) (by decide) (by decide)⟩

/-- C9: a URL whose scheme is in the static default-port table and
which carries no explicit port parses with the documented default
(5432 for postgresql/postgres, 3306 for mysql, 27017 for
mongodb/mongodb+srv, 6379 for redis/rediss); `mysql://u:p@h/db` parses
to port 3306; a scheme with no table entry leaves the port unset. -/
theorem parseUrl_default_ports :
    (∀ s u t, newURL s = Except.ok u → parseUrl s = Except.ok t →
      u.portStr = "" → t.port = defaultPortTable u.scheme) ∧
    defaultPortTable "postgresql" = some 5432 ∧
    defaultPortTable "postgres" = some 5432 ∧
    defaultPortTable "mysql" = some 3306 ∧
    defaultPortTable "mongodb" = some 27017 ∧
    defaultPortTable "mongodb+srv" = some 27017 ∧
    defaultPortTable "redis" = some 6379 ∧
    defaultPortTable "rediss" = some 6379 ∧
    parseUrl "mysql://u:p@h/db" =
      Except.ok ⟨"mysql", "u", "p", "h", some 3306, "db", []⟩ ∧
    (∀ s u t, newURL s = Except.ok u → parseUrl s = Except.ok t →
      u.portStr = "" → defaultPortTable u.scheme = none → t.port = none) := by
  have core : ∀ s u t, newURL s = Except.ok u → parseUrl s = Except.ok t →
      u.portStr = "" → t.port = defaultPortTable u.scheme := by
    intro s u t h1 h2 hp
    unfold parseUrl at h2
    rw [h1] at h2
    have h2 : (match decodeURIComponentM u.user with
        | Except.error m => Except.error m
        | Except.ok un =>
          match decodeURIComponentM u.pass with
          | Except.error m => Except.error m
          | Except.ok pw => Except.ok (parsedOf u un pw)) = Except.ok t := h2
    cases hu : decodeURIComponentM u.user with
    | error m => rw [hu] at h2; simp at h2
    | ok un =>
      rw [hu] at h2
      cases hw : decodeURIComponentM u.pass with
      | error m => rw [hw] at h2; simp at h2
      | ok pw =>
        rw [hw] at h2
        have ht : parsedOf u un pw = t := by
          injection h2
        rw [← ht]
        simp [parsedOf, hp]
  refine ⟨core, rfl, rfl, rfl, rfl, rfl, rfl, rfl, by decide, ?_⟩
  intro s u t h1 h2 hp htab
  rw [core s u t h1 h2 hp, htab]

/-- Witness for C9: `redis://h` has scheme `redis`, no explicit port,
and parses with the default port 6379. -/
theorem parseUrl_default_ports_witness :
    newURL "redis://h" = Except.ok ⟨"redis", "", "", "h", "", "", ""⟩ ∧
    parseUrl "redis://h" = Except.ok ⟨"redis", "", "", "h", some 6379, "", []⟩ ∧
    (⟨"redis", "", "", "h", some 6379, "", []⟩ : ParsedUrl).port =
      defaultPortTable "redis" :=
  ⟨by decide, by decide,
    parseUrl_default_ports.1 "redis://h" ⟨"redis", "", "", "h", "", "", ""⟩
      ⟨"redis", "", "", "h", some 6379, "", []⟩ (by decide) (by decide) (by decide)⟩

/-- C4: when every candidate environment variable (public and private)
of a runner is unset, the cache runner and the database runner produce
zero CheckRecords and return the neutral exit code 0, whatever the
validators would have done. -/
theorem unconfigured_target_skips (env : Env) (ifaces : Interfaces)
    (e : RedisExt) (vPg vMy vMo : String → List CheckResult)
    (hc : ∀ p ∈ cacheUrlConfigs, env p.1 = none ∧ env p.2 = none)
    (hd : ∀ p ∈ pgConfigs ++ mysqlConfigs ++ mongoConfigs,
      env p.1 = none ∧ env p.2 = none) :
    cacheRunChecks env ifaces e = Except.ok ([], 0) ∧
    databaseRunChecks env ifaces vPg vMy vMo = ([], 0) := by
  constructor
  · have h1 := hc ("REDIS_URL", "REDIS_PRIVATE_URL") (by simp [cacheUrlConfigs])
    have h2 := hc ("VALKEY_URL", "VALKEY_PRIVATE_URL") (by simp [cacheUrlConfigs])
    have h3 := hc ("CACHE_URL", "CACHE_PRIVATE_URL") (by simp [cacheUrlConfigs])
    have hfind : findFirstUrl env ifaces cacheUrlConfigs = none := by
      simp [cacheUrlConfigs, findFirstUrl, truthy,
        getConnectionUrl_unset env ifaces _ _ h1.1 h1.2,
        getConnectionUrl_unset env ifaces _ _ h2.1 h2.2,
        getConnectionUrl_unset env ifaces _ _ h3.1 h3.2]
    simp [cacheRunChecks, hfind]
  · have g1 := hd ("DATABASE_URL", "DATABASE_PRIVATE_URL") (by simp [pgConfigs])
    have g2 := hd ("POSTGRES_URL", "POSTGRES_PRIVATE_URL") (by simp [pgConfigs])
    have g3 := hd ("PG_URL", "PG_PRIVATE_URL") (by simp [pgConfigs])
    have g4 := hd ("MYSQL_URL", "MYSQL_PRIVATE_URL") (by simp [mysqlConfigs])
    have g5 := hd ("MYSQL_DATABASE_URL", "MYSQL_DATABASE_PRIVATE_URL")
      (by simp [mysqlConfigs])
    have g6 := hd ("MONGODB_URI", "MONGODB_PRIVATE_URI") (by simp [mongoConfigs])
    have g7 := hd ("MONGODB_URL", "MONGODB_PRIVATE_URL") (by simp [mongoConfigs])
    have g8 := hd ("MONGO_URL", "MONGO_PRIVATE_URL") (by simp [mongoConfigs])
    have dpg : dbFindAndRun env ifaces "postgresql" vPg pgConfigs = [] := by
      simp [pgConfigs, dbFindAndRun,
        getConnectionUrl_unset env ifaces _ _ g1.1 g1.2,
        getConnectionUrl_unset env ifaces _ _ g2.1 g2.2,
        getConnectionUrl_unset env ifaces _ _ g3.1 g3.2]
    have dmy : dbFindAndRun env ifaces "mysql" vMy mysqlConfigs = [] := by
      simp [mysqlConfigs, dbFindAndRun,
        getConnectionUrl_unset env ifaces _ _ g4.1 g4.2,
        getConnectionUrl_unset env ifaces _ _ g5.1 g5.2]
    have dmo : dbFindAndRun env ifaces "mongodb" vMo mongoConfigs = [] := by
      simp [mongoConfigs, dbFindAndRun,
        getConnectionUrl_unset env ifaces _ _ g6.1 g6.2,
        getConnectionUrl_unset env ifaces _ _ g7.1 g7.2,
        getConnectionUrl_unset env ifaces _ _ g8.1 g8.2]
    simp [databaseRunChecks, dpg, dmy, dmo]

/-- The empty process environment. -/
def envUnset : Env := fun _ => none

/-- A Redis oracle in which every external call succeeds. -/
def redisExtAllOk : RedisExt :=
  ⟨TcpOutcome.connected, true, Except.ok (), Except.ok "PONG",
   Except.ok "redis_version:7.2.4", Except.ok (),
   Except.ok (some "test_value_12345"), Except.ok (), Except.ok none,
   Except.ok ()⟩

/-- Witness for C4 in the empty environment, with validators that would
report records if they were ever reached. -/
theorem unconfigured_target_skips_witness :
    cacheRunChecks envUnset [] redisExtAllOk = Except.ok ([], 0) ∧
    databaseRunChecks envUnset []
      (fun _ => [⟨"PostgreSQL TCP", false, none⟩])
      (fun _ => [⟨"MySQL TCP", false, none⟩])
      (fun _ => [⟨"MongoDB TCP", false, none⟩]) = ([], 0) :=
  unconfigured_target_skips envUnset [] redisExtAllOk _ _ _
    (fun _ _ => ⟨rfl, rfl⟩) (fun _ _ => ⟨rfl, rfl⟩)

/-- C5: when the initial TCP probe fails, the Redis runner's record
list is exactly the one failing TCP record, and likewise for the
PostgreSQL runner, which in addition issues no driver call at all. -/
theorem tcp_failure_single_record (p : ParsedUrl) (eR : RedisExt) (eP : PgExt)
    (hR : (tcpCheck p.host p.port 5000 eR.tcp).1 = false)
    (hP : (tcpCheck p.host p.port 5000 eP.tcp).1 = false) :
    validateRedisParsed p eR =
      [⟨"Redis TCP", false, some (tcpCheck p.host p.port 5000 eR.tcp).2⟩] ∧
    validatePostgresqlParsed p eP =
      ([⟨"PostgreSQL TCP", false, some (tcpCheck p.host p.port 5000 eP.tcp).2⟩],
       []) := by
  constructor
  · simp [validateRedisParsed, hR]
  · simp [validatePostgresqlParsed, hP]

/-- A refused TCP connection. -/
def tcpRefused : TcpOutcome :=
  TcpOutcome.errCode "ECONNREFUSED" "connect ECONNREFUSED"

/-- Redis oracles against a down host: TCP refused, everything else
would succeed. -/
def redisExtDown : RedisExt :=
  ⟨tcpRefused, true, Except.ok (), Except.ok "PONG", Except.ok "",
   Except.ok (), Except.ok none, Except.ok (), Except.ok none, Except.ok ()⟩

/-- PostgreSQL oracles against a down host. -/
def pgExtDown : PgExt :=
  ⟨tcpRefused, true, Except.ok (), Except.ok "v", Except.ok (), Except.ok (),
   Except.ok (), Except.ok (), Except.ok (), Except.ok (), Except.ok (),
   Except.ok ()⟩

/-- A resolved cache target. -/
def cacheTarget : ParsedUrl :=
  ⟨"rediss", "", "pw", "cache.example", some 6379, "", []⟩

/-- Witness for C5 at a concrete refused connection. -/
theorem tcp_failure_single_record_witness :
    (tcpCheck cacheTarget.host cacheTarget.port 5000 redisExtDown.tcp).1 = false ∧
    validateRedisParsed cacheTarget redisExtDown =
      [⟨"Redis TCP", false, some "TCP connection to cache.example:6379 refused"⟩] ∧
    validatePostgresqlParsed cacheTarget pgExtDown =
      ([⟨"PostgreSQL TCP", false,
        some "TCP connection to cache.example:6379 refused"⟩], []) :=
  ⟨by decide,
    (tcp_failure_single_record cacheTarget redisExtDown pgExtDown
      (by decide) (by decide)).1,
    (tcp_failure_single_record cacheTarget redisExtDown pgExtDown
      (by decide) (by decide)).2⟩

/-- A world with no `10.*` interface but a private hostname that
resolves into `10.0.0.0/8`. -/
def worldPrivDns : World :=
  ⟨(fun k => if k = "DATABASE_PRIVATE_URL" then
      some "postgresql://u:p@private-db.internal:25060/db" else none),
   [("eth0", [⟨"IPv4", "172.17.0.2"⟩])],
   (fun h => if h = "private-db.internal" then some "10.126.0.5" else none)⟩

/-- C2 counterexample: in `worldPrivDns` the spec's hostname-resolution
signal (b) holds, so the spec's two-signal detection reports true, but
the source's `hasVpcInterface` — which only scans interfaces — reports
false; the claim that detection is true whenever either signal holds is
therefore false on the code. -/
theorem vpc_detection_misses_dns_signal :
    specVpcSignalB worldPrivDns = true ∧
    specVpcDetected worldPrivDns = true ∧
    hasVpcInterface worldPrivDns.ifaces = false :=
  ⟨by decide, by decide, by decide⟩

/-- C2 amended: the source's VPC detection is exactly the interface
scan (spec signal (a)); the hostname-resolution signal (b) is never
consulted, so detection reports false whenever no local interface has a
`10.*` IPv4 address, even if signal (b) holds. -/
theorem hasVpcInterface_interface_scan_only (w : World) :
    hasVpcInterface w.ifaces = specVpcSignalA w := by
  show scanInterfaces w.ifaces = _
  rw [scanInterfaces_eq_any]
  rfl

/-- An environment in which the cache URL has a scheme outside the
default-port table and no explicit port. -/
def envValkey : Env := fun k =>
  if k = "REDIS_URL" then some "valkey://h" else none

/-- C6 counterexample: the resolver hands `valkey://h` to the cache
runner (the URL is accepted and parsed), yet the parsed target's port
is `none` — the scheme is absent from the default-port table and the
URL carries no explicit port, so the "port is always populated"
invariant fails. -/
theorem port_unset_reaches_runner :
    findFirstUrl envValkey [] cacheUrlConfigs = some "valkey://h" ∧
    parseUrl "valkey://h" = Except.ok ⟨"valkey", "", "", "h", none, "", []⟩ ∧
    (⟨"valkey", "", "", "h", none, "", []⟩ : ParsedUrl).port = none :=
  ⟨by decide, by decide, rfl⟩

/-- C6 amended: the parsed port is absent exactly when the URL has no
explicit port and its scheme has no entry in the default-port table;
in every other case the port is populated. -/
theorem port_populated_iff_table_or_explicit (s : String) (u : UrlParts)
    (t : ParsedUrl) (h1 : newURL s = Except.ok u)
    (h2 : parseUrl s = Except.ok t) :
    t.port = none ↔ u.portStr = "" ∧ defaultPortTable u.scheme = none := by
  unfold parseUrl at h2
  rw [h1] at h2
  have h2 : (match decodeURIComponentM u.user with
      | Except.error m => Except.error m
      | Except.ok un =>
        match decodeURIComponentM u.pass with
        | Except.error m => Except.error m
        | Except.ok pw => Except.ok (parsedOf u un pw)) = Except.ok t := h2
  cases hu : decodeURIComponentM u.user with
  | error m => rw [hu] at h2; simp at h2
  | ok un =>
    rw [hu] at h2
    cases hw : decodeURIComponentM u.pass with
    | error m => rw [hw] at h2; simp at h2
    | ok pw =>
      rw [hw] at h2
      have ht : parsedOf u un pw = t := by
        injection h2
      rw [← ht]
      by_cases hp : u.portStr = ""
      · simp [parsedOf, hp]
      · simp [parsedOf, hp]

/-- Witness for C6 amended at `valkey://h`. -/
theorem port_populated_iff_witness :
    newURL "valkey://h" = Except.ok ⟨"valkey", "", "", "h", "", "", ""⟩ ∧
    parseUrl "valkey://h" = Except.ok ⟨"valkey", "", "", "h", none, "", []⟩ ∧
    ((⟨"valkey", "", "", "h", none, "", []⟩ : ParsedUrl).port = none ↔
      (⟨"valkey", "", "", "h", "", "", ""⟩ : UrlParts).portStr = "" ∧
      defaultPortTable (⟨"valkey", "", "", "h", "", "", ""⟩ : UrlParts).scheme = none) :=
  ⟨by decide, by decide,
    port_populated_iff_table_or_explicit "valkey://h"
      ⟨"valkey", "", "", "h", "", "", ""⟩
      ⟨"valkey", "", "", "h", none, "", []⟩ (by decide) (by decide)⟩

/-- A resolved PostgreSQL target. -/
def pgTarget : ParsedUrl :=
  ⟨"postgresql", "u", "p", "db.example", some 25060, "db", []⟩

/-- PostgreSQL oracles in which the write probe fails midway: connect,
version query, pre-clean drop, create, insert and select succeed, the
UPDATE throws, and everything after it would have succeeded. -/
def pgExtUpdateFails : PgExt :=
  ⟨TcpOutcome.connected, true, Except.ok (), Except.ok "PostgreSQL 16.4",
   Except.ok (), Except.ok (), Except.ok (), Except.ok (),
   Except.error "connection reset during UPDATE", Except.ok (),
   Except.ok (), Except.ok ()⟩

/-- C7 counterexample: with the mutation sequence failing after the
insert and before the delete, the PostgreSQL runner's trace of driver
calls contains no `DROP TABLE` of the created test table — the only
calls after the failing UPDATE are the connection teardown — so no
removal/cleanup of the created resource is attempted, refuting the
claim that cleanup is always attempted under partial failure. -/
theorem pg_partial_failure_skips_cleanup :
    (validatePostgresqlParsed pgTarget pgExtUpdateFails).2 =
      [PgCall.connect, PgCall.queryVersion, PgCall.dropIfExists,
       PgCall.createTable, PgCall.insertRow, PgCall.selectRows,
       PgCall.updateRow, PgCall.endConn] ∧
    PgCall.dropTable ∉ (validatePostgresqlParsed pgTarget pgExtUpdateFails).2 ∧
    pgPermsFail "connection reset during UPDATE" ∈
      (validatePostgresqlParsed pgTarget pgExtUpdateFails).1 ∧
    (⟨"PostgreSQL CREATE", true, some "Created table _validate_infra_test"⟩ :
      CheckResult) ∈ (validatePostgresqlParsed pgTarget pgExtUpdateFails).1 :=
  ⟨by decide, by decide, by decide, by decide⟩

/-- C7 amended: the PostgreSQL runner issues the `DROP TABLE` cleanup
of its test table exactly when the whole mutation sequence up to and
including the DELETE succeeded; when the sequence fails partway (for
example after the insert), no removal call is attempted afterwards.
(The OpenSearch runner, by contrast, retries index deletion in its
error handler.) -/
theorem pg_cleanup_only_on_full_success (e : PgExt) :
    PgCall.dropTable ∈ (pgPerms e).2 ↔
      e.dropIfExists = Except.ok () ∧ e.create = Except.ok () ∧
      e.insert = Except.ok () ∧ e.selectQ = Except.ok () ∧
      e.update = Except.ok () ∧ e.delete = Except.ok () := by
  cases h1 : e.dropIfExists with
  | error m => simp [pgPerms, h1]
  | ok u0 =>
    cases u0
    cases h2 : e.create with
    | error m => simp [pgPerms, h1, h2]
    | ok u1 =>
      cases u1
      cases h3 : e.insert with
      | error m => simp [pgPerms, h1, h2, h3]
      | ok u2 =>
        cases u2
        cases h4 : e.selectQ with
        | error m => simp [pgPerms, h1, h2, h3, h4]
        | ok u3 =>
          cases u3
          cases h5 : e.update with
          | error m => simp [pgPerms, h1, h2, h3, h4, h5]
          | ok u4 =>
            cases u4
            cases h6 : e.delete with
            | error m => simp [pgPerms, h1, h2, h3, h4, h5, h6]
            | ok u5 =>
              cases u5
              cases h7 : e.dropFinal with
              | error m => simp [pgPerms, h1, h2, h3, h4, h5, h6, h7]
              | ok u6 =>
                cases u6
                simp [pgPerms, h1, h2, h3, h4, h5, h6, h7]

/-- An environment whose cache URL is not a parseable URL. -/
def envNotUrl : Env := fun k =>
  if k = "REDIS_URL" then some "not a url" else none

/-- C8 counterexample: with `REDIS_URL` set to a malformed URL, the
parse error thrown by `parseUrl` escapes `validateRedis` and the cache
runner (no CheckRecord is produced); it is converted to exit code 1
only by the dispatcher's catch — refuting the claim that every error,
including URL parsing, is caught at the runner boundary and turned into
a failed CheckRecord. -/
theorem parse_error_escapes_runner :
    validateRedis "not a url" redisExtAllOk =
      Except.error "Invalid URL: not a url" ∧
    cacheRunChecks envNotUrl [] redisExtAllOk =
      Except.error "Invalid URL: not a url" ∧
    cacheCommandExit envNotUrl [] redisExtAllOk = 1 :=
  ⟨by decide, by decide, by decide⟩

/-- The failed connection record is always part of the connection-level
catch output. -/
theorem redisConnCatch_mem (msg : String) :
    (⟨"Redis Connection", false, some msg⟩ : CheckResult) ∈ redisConnCatch msg := by
  unfold redisConnCatch
  split
  · exact List.mem_append_left _ (by simp)
  · simp

/-- C8 amended: an error thrown by a driver operation (here: `connect`)
is caught inside the Redis runner and recorded as a failed
`Redis Connection` CheckRecord, but an error thrown by `parseUrl`
escapes the runner without producing any CheckRecord and is caught only
by the dispatcher, which reports exit code 1. -/
theorem runner_error_boundary (p : ParsedUrl) (e : RedisExt)
    (msg pm url : String) (env : Env) (ifaces : Interfaces)
    (h1 : (tcpCheck p.host p.port 5000 e.tcp).1 = true)
    (h2 : e.driverOk = true)
    (h3 : e.connect = Except.error msg)
    (h4 : parseUrl url = Except.error pm)
    (h5 : findFirstUrl env ifaces cacheUrlConfigs = some url) :
    (⟨"Redis Connection", false, some msg⟩ : CheckResult) ∈
      validateRedisParsed p e ∧
    validateRedis url e = Except.error pm ∧
    cacheRunChecks env ifaces e = Except.error pm ∧
    cacheCommandExit env ifaces e = 1 := by
  have hv : validateRedis url e = Except.error pm := by
    unfold validateRedis
    rw [h4]
  have hrun : cacheRunChecks env ifaces e = Except.error pm := by
    unfold cacheRunChecks
    rw [h5]
    show (match validateRedis url e with
      | Except.error m => Except.error m
      | Except.ok checks => Except.ok (checks, printSummary checks)) =
        Except.error pm
    rw [hv]
  refine ⟨?_, hv, hrun, ?_⟩
  · have hred : validateRedisParsed p e =
        [⟨"Redis TCP", true, some (tcpCheck p.host p.port 5000 e.tcp).2⟩] ++
          redisConnCatch msg := by
      simp [validateRedisParsed, redisSession, h1, h2, h3]
    rw [hred]
    exact List.mem_append_right _ (redisConnCatch_mem msg)
  · unfold cacheCommandExit
    rw [hrun]

/-- Redis oracles whose driver `connect` call throws. -/
def redisExtConnFails : RedisExt :=
  ⟨TcpOutcome.connected, true, Except.error "connect ETIMEDOUT",
   Except.ok "PONG", Except.ok "", Except.ok (), Except.ok none,
   Except.ok (), Except.ok none, Except.ok ()⟩

/-- Witness for C8 amended: a concrete connect failure is recorded
inside the runner while a concrete malformed URL escapes it. -/
theorem runner_error_boundary_witness :
    (⟨"Redis Connection", false, some "connect ETIMEDOUT"⟩ : CheckResult) ∈
      validateRedisParsed cacheTarget redisExtConnFails ∧
    validateRedis "not a url" redisExtConnFails =
      Except.error "Invalid URL: not a url" ∧
    cacheRunChecks envNotUrl [] redisExtConnFails =
      Except.error "Invalid URL: not a url" ∧
    cacheCommandExit envNotUrl [] redisExtConnFails = 1 :=
  runner_error_boundary cacheTarget redisExtConnFails "connect ETIMEDOUT"
    "Invalid URL: not a url" "not a url" envNotUrl []
    (by decide) (by decide) (by decide) (by decide) (by decide)

end ValidateInfra
